import Mathlib

/-!
Shallow embedding of the libpqxx session layer (`src/connection_base.cxx`)
and proofs of the specification claims about it.

The session layer sits on top of the libpq driver.  The driver is a black box to
the session code, so it is modelled by explicit state components: the socket
input buffer (`wireInput`), the driver's queued notifications (`pending`,
what `PQnotifies` pops after `PQconsumeInput` has moved socket data into the
driver), the trace of subscription commands issued (`wireCmds`, the LISTEN
and UNLISTEN statements the session sends through `exec`), bulk-copy data
handed to `PQputCopyData` (`copySent`), and other driver calls (`events`).
Receivers and error handlers are identified by numeric identity (they are
non-owned pointers in the source); a receiver is stored with the channel
name it reports, exactly as the source keys its `std::multimap`.  Calls that
the C++ code makes into collaborator objects are recorded in traces:
diagnostic messages going through `process_notice` land in `notices`, and
`errorhandler` unregistration during `close` lands in `unregistered`.
C++ exceptions are modelled as an `Option PqxxError` component of results;
a `noexcept` function is embedded as a total function with no error
component.
-/

set_option maxHeartbeats 1000000

namespace Pqxx

/-- Error kinds raised by the session layer, mirroring the pqxx exception
classes used in `connection_base.cxx`. -/
inductive PqxxError where
  | brokenConnection (msg : String)
  | failure (msg : String)
  | sqlError (msg : String)
  | argumentError (msg : String)
  | featureNotSupported (msg : String)
  | internalError (msg : String)
deriving DecidableEq

/-- One notification as produced by the driver (`PGnotify`): channel name,
payload, and sending backend process id. -/
structure Notification where
  relname : String
  extra : String
  be_pid : Int
deriving DecidableEq

/-- Subscription commands the session sends to the server via `exec`. -/
inductive WireCmd where
  | listen (channel : String)
  | unlisten (channel : String)
deriving DecidableEq

/-- Other driver calls the session issues, recorded as trace events:
`endcopy` is the `PQendcopy` stream-abort request, `drainCopyEnd` is the
drain-and-validate loop over `PQgetResult` at end of a COPY read. -/
inductive DriverEvent where
  | endcopy
  | drainCopyEnd
deriving DecidableEq

/-- State of one session (`pqxx::connection_base` object plus the visible
state of its driver handle). -/
structure ConnState where
  /-- whether `m_conn` is non-null -/
  hasConn : Bool
  /-- whether `PQstatus(m_conn) == CONNECTION_OK` -/
  statusOk : Bool
  /-- the `m_completed` activation-attempted flag -/
  completed : Bool
  /-- whether `m_trans.get()` is non-null (a transaction is registered) -/
  transActive : Bool
  /-- `PQserverVersion` as the driver reports it -/
  serverVersion : Int
  /-- `PQprotocolVersion` as the driver reports it (when a handle exists) -/
  protoVersion : Int
  /-- the `m_receivers` multimap: (channel, receiver identity) entries -/
  receivers : List (String × Nat)
  /-- the `m_errorhandlers` list, in registration (push_back) order -/
  errorhandlers : List Nat
  /-- notification input still on the socket, not yet consumed by
  `PQconsumeInput` -/
  wireInput : List Notification
  /-- notifications queued inside the driver, popped by `PQnotifies` -/
  pending : List Notification
  /-- trace of receiver invocations: (receiver identity, notification) -/
  invoked : List (Nat × Notification)
  /-- trace of diagnostic messages emitted through `process_notice` -/
  notices : List String
  /-- trace of LISTEN/UNLISTEN commands sent to the server -/
  wireCmds : List WireCmd
  /-- lines handed to `PQputCopyData` -/
  copySent : List (List Char)
  /-- other driver calls (stream abort, end-of-copy drain) -/
  events : List DriverEvent
  /-- trace of errorhandlers notified of disconnection during `close` -/
  unregistered : List Nat
  /-- text the driver would report from `PQerrorMessage` -/
  errMsg : String
deriving DecidableEq

/-- Embedding of `connection_base::is_open`: handle present, activation
completed, and the driver reports a healthy status. -/
def is_open (s : ConnState) : Bool :=
  s.hasConn && s.completed && s.statusOk

/-- Embedding of `connection_base::err_msg`. -/
def err_msg (s : ConnState) : String :=
  if s.hasConn then s.errMsg else "No connection to database"

/-! Registry helpers, mirroring the `std::multimap` operations the source
uses on `m_receivers`. -/

/-- Whether the registry holds at least one receiver for channel `c`
(the source's `m_receivers.find(channel) != end()`). -/
def hasChannel (rs : List (String × Nat)) (c : String) : Bool :=
  rs.any (fun p => p.1 == c)

/-- Number of receivers registered for channel `c` (size of the source's
`equal_range` for the key). -/
def channelCount (rs : List (String × Nat)) (c : String) : Nat :=
  (rs.filter (fun p => p.1 == c)).length

/-- Erase the first registry entry equal to `q`, as `m_receivers.erase(i)`
does for the iterator found inside the matching `equal_range`. -/
def eraseReceiver : List (String × Nat) → String × Nat → List (String × Nat)
  | [], _ => []
  | p :: rest, q => if p = q then rest else p :: eraseReceiver rest q

/-- Embedding of `connection_base::add_receiver`.  A null receiver argument
is `none` and raises an argument error.  If no receiver is registered for
the channel yet, a LISTEN command is issued first (only when the session is
open; the source silently tolerates a broken-connection failure of this
`exec`, and on a healthy open session the command succeeds), then the entry
is inserted.  Otherwise the entry is inserted next to the existing ones
without any command. -/
def add_receiver (s : ConnState) (r : Option (String × Nat)) :
    ConnState × Option PqxxError :=
  match r with
  | none => (s, some (.argumentError "Null receiver registered"))
  | some (c, id) =>
    if hasChannel s.receivers c then
      ({ s with receivers := s.receivers ++ [(c, id)] }, none)
    else
      let s1 := if is_open s then
          { s with wireCmds := s.wireCmds ++ [WireCmd.listen c] }
        else s
      ({ s1 with receivers := s1.receivers ++ [(c, id)] }, none)

/-- Embedding of `connection_base::remove_receiver` (`noexcept`, so it is a
total function; its internal try/catch turns exceptions into notices).  A
null receiver returns immediately.  An unknown (channel, receiver) pair
only emits a diagnostic notice.  A known pair is erased first; if it was
the last receiver for its channel and a handle exists, an UNLISTEN command
is issued afterwards. -/
def remove_receiver (s : ConnState) (r : Option (String × Nat)) : ConnState :=
  match r with
  | none => s
  | some (c, id) =>
    if (c, id) ∈ s.receivers then
      let gone := s.hasConn && (channelCount s.receivers c == 1)
      let s1 := { s with receivers := eraseReceiver s.receivers (c, id) }
      if gone then { s1 with wireCmds := s1.wireCmds ++ [WireCmd.unlisten c] }
      else s1
    else
      { s with notices :=
          s.notices ++ ["Attempt to remove unknown receiver " ++ c] }

/-- Effect of one subscription command on the set of channels subscribed on
the wire: LISTEN adds the channel, UNLISTEN removes it (PostgreSQL LISTEN
is idempotent per channel). -/
def applyWireCmd (acc : List String) : WireCmd → List String
  | .listen c => if c ∈ acc then acc else acc ++ [c]
  | .unlisten c => acc.filter (fun x => x != c)

/-- Channels with a live subscription after a trace of commands. -/
def subscribedChannels (cmds : List WireCmd) : List String :=
  cmds.foldl applyWireCmd []

/-- One registry operation: an `add_receiver` or `remove_receiver` call with
a non-null receiver. -/
inductive RcvOp where
  | add (c : String) (id : Nat)
  | remove (c : String) (id : Nat)

/-- Apply one registry operation to the session state. -/
def stepOp (s : ConnState) : RcvOp → ConnState
  | .add c id => (add_receiver s (some (c, id))).1
  | .remove c id => remove_receiver s (some (c, id))

/-- Apply a sequence of registry operations. -/
def runOps (s : ConnState) (ops : List RcvOp) : ConnState :=
  ops.foldl stepOp s

/-- The subscription invariant: a channel has a live LISTEN subscription on
the wire exactly when the registry holds at least one receiver for it. -/
def SubInv (s : ConnState) : Prop :=
  ∀ c : String, c ∈ subscribedChannels s.wireCmds ↔ hasChannel s.receivers c = true

/-! Notification polling (`get_notifs`). -/

/-- Embedding of `consume_input` / `PQconsumeInput` on success: all input
available on the socket moves into the driver's internal notification
queue, where `PQnotifies` can pop it. -/
def consume_input (s : ConnState) : ConnState :=
  { s with pending := s.pending ++ s.wireInput, wireInput := [] }

/-- Body of the receiver-invocation loop in `get_notifs`: invoke one
receiver for notification `n`; an exception escaping the receiver (oracle
`recvFail`) is caught and converted into a diagnostic notice, never
propagated. -/
def invokeStep (recvFail : Nat → Notification → Bool) (n : Notification)
    (acc : ConnState) (p : String × Nat) : ConnState :=
  if recvFail p.2 n then
    { acc with notices := acc.notices ++
        ["Exception in notification receiver " ++ p.1] }
  else
    { acc with invoked := acc.invoked ++ [(p.2, n)] }

/-- Delivery of one notification: every receiver registered for its channel
(the source's `equal_range`) is invoked in turn. -/
def deliverOne (recvFail : Nat → Notification → Bool) (st : ConnState)
    (n : Notification) : ConnState :=
  (st.receivers.filter (fun p => p.1 == n.relname)).foldl
    (invokeStep recvFail n) st

/-- Result of a `get_notifs` call: the state afterwards, the returned
count, and the exception raised if any. -/
structure NotifsResult where
  st : ConnState
  count : Nat
  err : Option PqxxError
deriving DecidableEq

/-- Embedding of `connection_base::get_notifs`.  Returns 0 if not open.
Consumes socket input (oracle `consumeOk` is the success of
`PQconsumeInput`; failure raises broken-connection).  If a transaction is
registered, returns 0 without touching the driver's notification queue.
Otherwise drains every queued notification in arrival order, invoking the
registered receivers for its channel, and returns the number drained. -/
def get_notifs (consumeOk : Bool) (recvFail : Nat → Notification → Bool)
    (s : ConnState) : NotifsResult :=
  if is_open s = false then ⟨s, 0, none⟩
  else if consumeOk = false then ⟨s, 0, some (.brokenConnection "")⟩
  else
    let s1 := consume_input s
    if s1.transActive then ⟨s1, 0, none⟩
    else
      ⟨s1.pending.foldl (deliverOne recvFail) { s1 with pending := [] },
        s1.pending.length, none⟩

/-! Notice dispatch through the errorhandler chain. -/

/-- Core loop of `process_notice_raw`: walk the given handler list; each
handler is invoked, and iteration continues exactly while the invoked
handler returns `true` (in the source, returning `false` means the handler
consumed the message and dispatch stops).  Returns the list of handlers
that observed the message, in invocation order. -/
def dispatchList (hfun : Nat → List Char → Bool) (msg : List Char) :
    List Nat → List Nat
  | [] => []
  | h :: rest => h :: (if hfun h msg then dispatchList hfun msg rest else [])

/-- Embedding of `connection_base::process_notice_raw`: a null or empty
message is ignored; otherwise the handler chain is walked from
most-recently-registered (the back of `m_errorhandlers`) to
least-recently-registered. -/
def process_notice_raw (hfun : Nat → List Char → Bool) (handlers : List Nat)
    (msg : List Char) : List Nat :=
  if msg = [] then [] else dispatchList hfun msg handlers.reverse

/-! Notice text normalization (`process_notice`).  String allocation can
fail in C++ (that is what the try/catch fallbacks are for), so the
embedding takes an oracle `alloc : Nat → Bool` telling whether building a
string of the given length succeeds.  The functions return the list of
strings handed to `process_notice_raw` (which passes each one unchanged to
the handlers that observe it). -/

/-- The truncation marker placed at the end of every full chunk
(the source's `separator` array "[...]\n"). -/
def separatorChars : List Char := ['[', '.', '.', '.', ']', '\n']

/-- Last chunk of the degraded buffer-copy path: the remaining bytes, plus
a newline unless the last byte already is one. -/
def lastChunk (msg : List Char) : List Char :=
  msg ++ (if msg.getLast? = some '\n' then [] else ['\n'])

/-- Degraded buffer-copy path of `process_notice(const char[])`: the
message is cut into chunks of 999 bytes, each full chunk suffixed with the
truncation marker, and the final chunk newline-terminated.  (999 is the
source's `sizeof(buf) - sizeof(separator) - 1` with a 1007-byte buffer.) -/
def noticeChunks (msg : List Char) : List (List Char) :=
  if _h : 999 < msg.length then
    (msg.take 999 ++ separatorChars) :: noticeChunks (msg.drop 999)
  else
    [lastChunk msg]
termination_by msg.length
decreasing_by
  simp only [List.length_drop]
  omega

/-- Embedding of `process_notice(const std::string &)`: if the text ends in
a newline it goes to the chain as is; otherwise a newline is appended when
the concatenation can be allocated; if even that fails, the text is passed
unterminated followed by a bare newline. -/
def process_notice_string (alloc : Nat → Bool) (msg : List Char) :
    List (List Char) :=
  if msg.getLast? = some '\n' then [msg]
  else if alloc (msg.length + 1) then [msg ++ ['\n']]
  else [msg, ['\n']]

/-- Embedding of `process_notice(const char[])`, the entry point libpq
calls: null/empty text is ignored; newline-terminated text goes straight to
the chain; otherwise the text is copied into a `std::string` (needs
`alloc msg.length`) and handled by the string overload; if the copy itself
cannot be allocated, the chunked buffer-copy fallback runs. -/
def process_notice_char (alloc : Nat → Bool) (msg : List Char) :
    List (List Char) :=
  if msg.length = 0 then []
  else if msg.getLast? = some '\n' then [msg]
  else if alloc msg.length then process_notice_string alloc msg
  else noticeChunks msg

/-- Whether a string ends in exactly one newline (its last character is a
newline and the character before that, if any, is not). -/
def endsInOneNewline (sChars : List Char) : Bool :=
  (sChars.getLast? == some '\n') && !(sChars.dropLast.getLast? == some '\n')

/-! Session lifecycle. -/

/-- Embedding of `connection_base::disconnect`: route the handle through
the policy's teardown primitive; afterwards no handle exists. -/
def disconnect (s : ConnState) : ConnState := { s with hasConn := false }

/-- Embedding of `connection_base::simulate_failure`: force disconnection
of an existing handle without going through `close`. -/
def simulate_failure (s : ConnState) : ConnState :=
  if s.hasConn then disconnect s else s

/-- Embedding of `connection_base::read_capabilities`: server version must
exceed 9.0 and the frontend/backend protocol must be at least version 3
(the driver reports protocol version 0 when there is no connection). -/
def read_capabilities (s : ConnState) : Option PqxxError :=
  if s.serverVersion ≤ 90000 then
    some (.featureNotSupported "Unsupported server version; 9.0 is the minimum.")
  else if (if s.hasConn then s.protoVersion else 0) = 0 then
    some (.brokenConnection "No connection.")
  else if (if s.hasConn then s.protoVersion else 0) < 3 then
    some (.featureNotSupported
      "Unsupported frontend or backend protocol version; 3.0 is the minimum.")
  else none

/-- Embedding of `connection_base::set_up_state`: read capabilities, then,
if receivers are registered, issue one batched LISTEN per distinct channel
(the source deduplicates by walking the sorted multimap; here the distinct
channels of the registry), and finally fail with broken-connection if the
session is not open. -/
def set_up_state (s : ConnState) : ConnState × Option PqxxError :=
  match read_capabilities s with
  | some e => (s, some e)
  | none =>
    let s1 := if s.receivers.isEmpty then s
      else { s with wireCmds :=
          s.wireCmds ++ ((s.receivers.map Prod.fst).dedup.map WireCmd.listen) }
    if is_open s1 then (s1, none)
    else (s1, some (.brokenConnection "Could not connect."))

/-- Embedding of `connection_base::activate`.  If activation was already
attempted: return immediately when open, raise broken-connection when not
(never touching the policy's connect primitive again).  Otherwise mark the
attempt, check openness, and run `set_up_state`; a broken-connection
failure anywhere on that path triggers disconnection cleanup and
re-raises. -/
def activate (s : ConnState) : ConnState × Option PqxxError :=
  if s.completed then
    if is_open s then (s, none)
    else (s, some (.brokenConnection "Broken connection."))
  else
    let s1 := { s with completed := true }
    if is_open s1 then
      match set_up_state s1 with
      | (s2, some (.brokenConnection m)) => (disconnect s2, some (.brokenConnection m))
      | (s2, e) => (s2, e)
    else (disconnect s1, some (.brokenConnection (err_msg s1)))

/-! Teardown (`close`).  The body of `close` sits inside one catch-all
try/catch; each of its steps may raise (string building inside
`process_notice`, collaborator callbacks), which the oracle `fail`
models.  A step that raises abandons the remaining steps (the exception
jumps to the catch), and the exception is swallowed. -/

/-- Steps of the `close` body that can raise, for the failure oracle. -/
inductive CloseStep where
  | transNotice
  | recvNotice
  | unregisterStep (h : Nat)
  | release
deriving DecidableEq

/-- Loop over the swapped-out handler list (in reverse registration order),
notifying each handler that its connection is gone.  Returns the state and
whether a step raised. -/
def unregisterAll (fail : CloseStep → Bool) :
    ConnState → List Nat → ConnState × Bool
  | st, [] => (st, false)
  | st, h :: rest =>
    if fail (.unregisterStep h) then (st, true)
    else unregisterAll fail
      { st with unregistered := st.unregistered ++ [h] } rest

/-- Final step of the `close` body: release the handle through the policy
teardown. -/
def closeRelease (fail : CloseStep → Bool) (s : ConnState) : ConnState × Bool :=
  if fail .release then (s, true) else ({ s with hasConn := false }, false)

/-- Handler-unregistration step of the `close` body: the chain is swapped
out first (so it is empty even if a callback raises), then every old
handler is notified in reverse registration order. -/
def closeHandlers (fail : CloseStep → Bool) (s : ConnState) : ConnState × Bool :=
  let old := s.errorhandlers
  let r := unregisterAll fail { s with errorhandlers := [] } old.reverse
  if r.2 then (r.1, true) else closeRelease fail r.1

/-- Receiver step of the `close` body: if receivers remain, emit a
diagnostic notice and clear the registry (receivers are not notified
individually). -/
def closeReceivers (fail : CloseStep → Bool) (s : ConnState) : ConnState × Bool :=
  if s.receivers.isEmpty then closeHandlers fail s
  else if fail .recvNotice then (s, true)
  else closeHandlers fail
    { s with
      notices := s.notices ++ ["Closing connection with outstanding receivers."],
      receivers := [] }

/-- Body of `close` (the inside of its try block): transaction notice,
receiver notice and registry clearing, handler unregistration, handle
release.  The boolean reports whether a step raised. -/
def closeInner (fail : CloseStep → Bool) (s : ConnState) : ConnState × Bool :=
  if s.transActive then
    if fail .transNotice then (s, true)
    else closeReceivers fail
      { s with notices := s.notices ++
          ["Closing connection while a transaction is still open."] }
  else closeReceivers fail s

/-- Embedding of `connection_base::close` (`noexcept`): run the body and
swallow any exception it raised, so the call itself never propagates a
failure. -/
def close (fail : CloseStep → Bool) (s : ConnState) : ConnState × Option PqxxError :=
  ((closeInner fail s).1, none)

/-! Bulk transfer (COPY). -/

/-- Embedding of `connection_base::write_copy_line`.  Requires an open
session (internal error otherwise, matching the source's throw).  A line
terminator is appended unconditionally and the result is handed to
`PQputCopyData`; `sendResult` is that call's return value.  A non-positive
send result issues the `PQendcopy` stream-abort request and then raises a
query failure carrying the driver's error text. -/
def write_copy_line (sendResult : Int) (s : ConnState) (line : List Char) :
    ConnState × Option PqxxError :=
  if is_open s = false then
    (s, some (.internalError "write_copy_line() without connection"))
  else
    let L := line ++ ['\n']
    if sendResult ≤ 0 then
      ({ s with events := s.events ++ [DriverEvent.endcopy] },
        some (.failure ("Error writing to table: " ++ s.errMsg)))
    else
      ({ s with copySent := s.copySent ++ [L] }, none)

/-- Result of a `read_copy_line` call: state afterwards, the caller's
output string after the call, the returned boolean (`none` when the call
raised instead of returning), and the exception if any. -/
structure CopyReadResult where
  st : ConnState
  line : List Char
  gotLine : Option Bool
  err : Option PqxxError
deriving DecidableEq

/-- Embedding of `connection_base::read_copy_line`.  `retLen` is
`PQgetCopyData`'s return value and `buf` the buffer it produced (non-null
exactly when `retLen` is positive, per the driver contract).  `lineIn` is
the caller's string before the call; it is erased first, then: -2 raises a
query failure with the driver's error text, -1 drains and validates the
trailing result objects and reports no more lines, 0 raises an internal
error (the asynchronous case this session never uses), and anything else
falls to the default case that stores the returned data and reports a line
available. -/
def read_copy_line (retLen : Int) (buf : List Char) (lineIn : List Char)
    (s : ConnState) : CopyReadResult :=
  if is_open s = false then
    ⟨s, lineIn, none, some (.internalError "read_copy_line() without connection")⟩
  else if retLen = -2 then
    ⟨s, [], none, some (.failure ("Reading of table data failed: " ++ s.errMsg))⟩
  else if retLen = -1 then
    ⟨{ s with events := s.events ++ [DriverEvent.drainCopyEnd] }, [], some false, none⟩
  else if retLen = 0 then
    ⟨s, [], none, some (.internalError "table read inexplicably went asynchronous")⟩
  else
    ⟨s, buf, some true, none⟩

/-- A healthy, open, activated session with empty registries, used as the
base state of concrete witnesses. -/
def s0 : ConnState where
  hasConn := true
  statusOk := true
  completed := true
  transActive := false
  serverVersion := 100000
  protoVersion := 3
  receivers := []
  errorhandlers := []
  wireInput := []
  pending := []
  invoked := []
  notices := []
  wireCmds := []
  copySent := []
  events := []
  unregistered := []
  errMsg := ""

/-- An open session with a registered transaction, a receiver on channel
"alerts", and one notification for that channel still unread on the
socket. -/
def cs3 : ConnState :=
  { s0 with
    transActive := true
    receivers := [("alerts", 7)]
    wireInput := [⟨"alerts", "p1", 1⟩] }

/-- An open session with no registered transaction, no receivers, and one
notification still unread on the socket for a channel nobody listens
to. -/
def cs9 : ConnState :=
  { s0 with wireInput := [⟨"alerts", "p1", 1⟩] }

/-! Helper lemmas. -/

theorem unregisterAll_nofail (l : List Nat) (st : ConnState) :
    unregisterAll (fun _ => false) st l
      = ({ st with unregistered := st.unregistered ++ l }, false) := by
  induction l generalizing st with
  | nil => simp [unregisterAll]
  | cons h t ih => simp [unregisterAll, ih, List.append_assoc]

theorem close_nofail (s : ConnState) :
    (close (fun _ => false) s).1 =
      { s with
        hasConn := false
        receivers := []
        errorhandlers := []
        unregistered := s.unregistered ++ s.errorhandlers.reverse
        notices := s.notices
          ++ (if s.transActive then
                ["Closing connection while a transaction is still open."] else [])
          ++ (if s.receivers.isEmpty then []
              else ["Closing connection with outstanding receivers."]) } := by
  unfold close closeInner closeReceivers closeHandlers closeRelease
  by_cases ht : s.transActive <;> by_cases hr : s.receivers.isEmpty <;>
    simp [ht, hr, unregisterAll_nofail, List.isEmpty_iff.mp, hr]

theorem dispatchList_leading (hfun : Nat → List Char → Bool) (msg : List Char)
    (rs : List Nat) : ∃ t, rs = dispatchList hfun msg rs ++ t := by
  induction rs with
  | nil => exact ⟨[], rfl⟩
  | cons h rest ih =>
    cases hh : hfun h msg with
    | true =>
      obtain ⟨t, ht⟩ := ih
      refine ⟨t, ?_⟩
      simp only [dispatchList, hh, if_true, List.cons_append]
      exact congrArg (h :: ·) ht
    | false =>
      refine ⟨rest, ?_⟩
      simp [dispatchList, hh]

theorem dispatchList_eq_span (hfun : Nat → List Char → Bool) (msg : List Char)
    (rs : List Nat) :
    dispatchList hfun msg rs
      = rs.takeWhile (fun g => hfun g msg)
        ++ (rs.dropWhile (fun g => hfun g msg)).take 1 := by
  induction rs with
  | nil => rfl
  | cons a rest ih =>
    cases hf : hfun a msg with
    | true => simp [dispatchList, hf, List.takeWhile_cons, List.dropWhile_cons, ih]
    | false => simp [dispatchList, hf, List.takeWhile_cons, List.dropWhile_cons]

theorem dispatchList_all_true (hfun : Nat → List Char → Bool) (msg : List Char)
    (rs : List Nat) (hall : ∀ g ∈ rs, hfun g msg = true) :
    dispatchList hfun msg rs = rs := by
  induction rs with
  | nil => rfl
  | cons a rest ih =>
    simp [dispatchList, hall a (by simp),
      ih (fun g hg => hall g (by simp [hg]))]

theorem invokeStep_invoked_mono (f : Nat → Notification → Bool)
    (n : Notification) (acc : ConnState) (p : String × Nat) (x : Nat × Notification)
    (hx : x ∈ acc.invoked) : x ∈ (invokeStep f n acc p).invoked := by
  unfold invokeStep
  split
  · exact hx
  · simp [hx]

theorem invokeStep_receivers (f : Nat → Notification → Bool) (n : Notification)
    (acc : ConnState) (p : String × Nat) :
    (invokeStep f n acc p).receivers = acc.receivers := by
  unfold invokeStep
  split <;> rfl

theorem fold_invokeStep_invoked_mono (f : Nat → Notification → Bool)
    (n : Notification) (l : List (String × Nat)) (st : ConnState)
    (x : Nat × Notification) (hx : x ∈ st.invoked) :
    x ∈ (l.foldl (invokeStep f n) st).invoked := by
  induction l generalizing st with
  | nil => exact hx
  | cons p rest ih =>
    rw [List.foldl_cons]
    exact ih _ (invokeStep_invoked_mono f n st p x hx)

theorem fold_invokeStep_receivers (f : Nat → Notification → Bool)
    (n : Notification) (l : List (String × Nat)) (st : ConnState) :
    (l.foldl (invokeStep f n) st).receivers = st.receivers := by
  induction l generalizing st with
  | nil => rfl
  | cons p rest ih =>
    rw [List.foldl_cons, ih, invokeStep_receivers]

theorem fold_invokeStep_invokes (f : Nat → Notification → Bool)
    (n : Notification) (c : String) (id : Nat) (hf : f id n = false) :
    ∀ (l : List (String × Nat)) (st : ConnState), (c, id) ∈ l →
      (id, n) ∈ (l.foldl (invokeStep f n) st).invoked := by
  intro l
  induction l with
  | nil => intro st hmem; cases hmem
  | cons p rest ih =>
    intro st hmem
    rw [List.foldl_cons]
    rcases List.mem_cons.mp hmem with heq | hmem2
    · apply fold_invokeStep_invoked_mono
      rw [← heq]
      simp [invokeStep, hf]
    · exact ih _ hmem2

theorem deliverOne_invoked_mono (f : Nat → Notification → Bool) (st : ConnState)
    (n : Notification) (x : Nat × Notification) (hx : x ∈ st.invoked) :
    x ∈ (deliverOne f st n).invoked :=
  fold_invokeStep_invoked_mono f n _ st x hx

theorem deliverOne_receivers (f : Nat → Notification → Bool) (st : ConnState)
    (n : Notification) : (deliverOne f st n).receivers = st.receivers :=
  fold_invokeStep_receivers f n _ st

theorem deliverOne_invokes (f : Nat → Notification → Bool) (st : ConnState)
    (n : Notification) (c : String) (id : Nat)
    (hmem : (c, id) ∈ st.receivers) (hrel : n.relname = c) (hf : f id n = false) :
    (id, n) ∈ (deliverOne f st n).invoked := by
  unfold deliverOne
  apply fold_invokeStep_invokes f n c id hf _ st
  simp [List.mem_filter, hmem, hrel]

theorem deliverOne_no_receivers (f : Nat → Notification → Bool) (st : ConnState)
    (n : Notification) (h : hasChannel st.receivers n.relname = false) :
    deliverOne f st n = st := by
  unfold deliverOne
  have hfil : st.receivers.filter (fun p => p.1 == n.relname) = [] := by
    rw [List.filter_eq_nil_iff]
    intro p hp hpc
    have h2 : hasChannel st.receivers n.relname = true := by
      unfold hasChannel
      exact List.any_eq_true.mpr ⟨p, hp, hpc⟩
    rw [h] at h2
    cases h2
  rw [hfil]
  rfl

theorem drain_invoked_mono (f : Nat → Notification → Bool)
    (q : List Notification) (st : ConnState) (x : Nat × Notification)
    (hx : x ∈ st.invoked) : x ∈ (q.foldl (deliverOne f) st).invoked := by
  induction q generalizing st with
  | nil => exact hx
  | cons m rest ih =>
    rw [List.foldl_cons]
    exact ih _ (deliverOne_invoked_mono f st m x hx)

theorem drain_receivers (f : Nat → Notification → Bool)
    (q : List Notification) (st : ConnState) :
    (q.foldl (deliverOne f) st).receivers = st.receivers := by
  induction q generalizing st with
  | nil => rfl
  | cons m rest ih =>
    rw [List.foldl_cons, ih, deliverOne_receivers]

theorem drain_invokes (f : Nat → Notification → Bool) (n : Notification)
    (c : String) (id : Nat) (hrel : n.relname = c) (hf : f id n = false) :
    ∀ (q : List Notification) (st : ConnState), n ∈ q → (c, id) ∈ st.receivers →
      (id, n) ∈ (q.foldl (deliverOne f) st).invoked := by
  intro q
  induction q with
  | nil => intro st hq; cases hq
  | cons m rest ih =>
    intro st hq hmem
    rw [List.foldl_cons]
    rcases List.mem_cons.mp hq with heq | hq2
    · subst heq
      apply drain_invoked_mono
      exact deliverOne_invokes f st n c id hmem hrel hf
    · apply ih _ hq2
      rw [deliverOne_receivers]
      exact hmem

theorem get_notifs_open_notrans (f : Nat → Notification → Bool) (t : ConnState)
    (ho : is_open t = true) (htr : t.transActive = false) :
    get_notifs true f t
      = ⟨(t.pending ++ t.wireInput).foldl (deliverOne f)
            { consume_input t with pending := [] },
          (t.pending ++ t.wireInput).length, none⟩ := by
  simp [get_notifs, ho, consume_input, htr]

theorem drain_no_receivers (f : Nat → Notification → Bool)
    (q : List Notification) (st : ConnState)
    (h : ∀ n ∈ q, hasChannel st.receivers n.relname = false) :
    q.foldl (deliverOne f) st = st := by
  induction q with
  | nil => rfl
  | cons m rest ih =>
    rw [List.foldl_cons, deliverOne_no_receivers f st m (h m (by simp))]
    exact ih (fun n hn => h n (by simp [hn]))

theorem noticeChunks_end_newline :
    ∀ (fuel : Nat) (msg : List Char), msg.length ≤ fuel → msg ≠ [] →
      ∀ ch ∈ noticeChunks msg, ch.getLast? = some '\n' := by
  intro fuel
  induction fuel with
  | zero =>
    intro msg hle hne
    exact absurd (List.length_eq_zero.mp (Nat.le_zero.mp hle)) hne
  | succ k ih =>
    intro msg hle hne ch hch
    rw [noticeChunks] at hch
    by_cases h9 : 999 < msg.length
    · rw [dif_pos h9] at hch
      rcases List.mem_cons.mp hch with rfl | hch2
      · rw [List.getLast?_append_of_ne_nil]
        · rfl
        · simp [separatorChars]
      · apply ih (msg.drop 999) ?_ ?_ ch hch2
        · simp only [List.length_drop]
          omega
        · apply List.ne_nil_of_length_pos
          simp only [List.length_drop]
          omega
    · rw [dif_neg h9] at hch
      simp only [List.mem_singleton] at hch
      subst hch
      unfold lastChunk
      by_cases hl : msg.getLast? = some '\n'
      · simp [hl]
      · simp [hl, List.getLast?_concat]

theorem subscribed_snoc (cmds : List WireCmd) (cmd : WireCmd) :
    subscribedChannels (cmds ++ [cmd]) = applyWireCmd (subscribedChannels cmds) cmd := by
  simp [subscribedChannels, List.foldl_append]

theorem mem_applyListen (acc : List String) (c x : String) :
    x ∈ applyWireCmd acc (.listen c) ↔ x ∈ acc ∨ x = c := by
  show x ∈ (if c ∈ acc then acc else acc ++ [c]) ↔ x ∈ acc ∨ x = c
  by_cases hc : c ∈ acc
  · rw [if_pos hc]
    constructor
    · exact Or.inl
    · rintro (h | rfl)
      · exact h
      · exact hc
  · rw [if_neg hc]
    simp

theorem mem_applyUnlisten (acc : List String) (c x : String) :
    x ∈ applyWireCmd acc (.unlisten c) ↔ x ∈ acc ∧ x ≠ c := by
  simp [applyWireCmd, List.mem_filter, bne_iff_ne]

theorem hasChannel_append (rs : List (String × Nat)) (c x : String) (id : Nat) :
    hasChannel (rs ++ [(c, id)]) x = (hasChannel rs x || (c == x)) := by
  simp [hasChannel, List.any_append]

theorem channelCount_cons (p : String × Nat) (rs : List (String × Nat)) (x : String) :
    channelCount (p :: rs) x = (if p.1 == x then 1 else 0) + channelCount rs x := by
  by_cases h : (p.1 == x) = true <;>
    simp [channelCount, List.filter_cons, h, Nat.add_comm]

theorem hasChannel_false_iff (rs : List (String × Nat)) (x : String) :
    hasChannel rs x = false ↔ channelCount rs x = 0 := by
  simp [hasChannel, channelCount, List.any_eq_false, List.length_eq_zero,
    List.filter_eq_nil_iff]

theorem hasChannel_true_iff (rs : List (String × Nat)) (x : String) :
    hasChannel rs x = true ↔ 0 < channelCount rs x := by
  cases hh : hasChannel rs x with
  | true =>
    have := (hasChannel_false_iff rs x)
    simp only [hh] at this
    constructor
    · intro _
      rcases Nat.eq_zero_or_pos (channelCount rs x) with h0 | h0
      · exact absurd (this.mpr h0) (by simp)
      · exact h0
    · exact fun _ => rfl
  | false =>
    have h0 := (hasChannel_false_iff rs x).mp hh
    constructor
    · intro h; cases h
    · intro h; omega

theorem mem_count_pos (rs : List (String × Nat)) (c : String) (id : Nat)
    (hmem : (c, id) ∈ rs) : 0 < channelCount rs c := by
  induction rs with
  | nil => cases hmem
  | cons p rest ih =>
    rcases List.mem_cons.mp hmem with heq | hmem2
    · rw [channelCount_cons, ← heq]
      simp
    · rw [channelCount_cons]
      have := ih hmem2
      omega

theorem channelCount_erase (rs : List (String × Nat)) (c x : String) (id : Nat)
    (hmem : (c, id) ∈ rs) :
    channelCount (eraseReceiver rs (c, id)) x
      = channelCount rs x - (if c == x then 1 else 0) := by
  induction rs with
  | nil => cases hmem
  | cons p rest ih =>
    unfold eraseReceiver
    by_cases hp : p = (c, id)
    · rw [if_pos hp, hp, channelCount_cons]
      simp only []
      omega
    · rw [if_neg hp]
      rcases List.mem_cons.mp hmem with heq | hmem2
      · exact absurd heq.symm hp
      · rw [channelCount_cons, channelCount_cons, ih hmem2]
        have hle : (if c == x then 1 else 0) ≤ channelCount rest x := by
          by_cases hcx : (c == x) = true
          · rw [if_pos hcx]
            have h1 := mem_count_pos rest c id hmem2
            have h2 : c = x := beq_iff_eq.mp hcx
            rw [← h2]
            exact h1
          · rw [if_neg hcx]
            omega
        omega

theorem hasChannel_erase_ne (rs : List (String × Nat)) (c x : String) (id : Nat)
    (hmem : (c, id) ∈ rs) (hne : x ≠ c) :
    hasChannel (eraseReceiver rs (c, id)) x = hasChannel rs x := by
  have hbe : (c == x) = false := beq_eq_false_iff_ne.mpr (fun h => hne h.symm)
  cases hh : hasChannel rs x with
  | true =>
    rw [hasChannel_true_iff, channelCount_erase rs c x id hmem, hbe]
    have := (hasChannel_true_iff rs x).mp hh
    simpa using this
  | false =>
    rw [hasChannel_false_iff, channelCount_erase rs c x id hmem, hbe]
    have := (hasChannel_false_iff rs x).mp hh
    simpa using this

theorem hasChannel_erase_last (rs : List (String × Nat)) (c : String) (id : Nat)
    (hmem : (c, id) ∈ rs) (hone : channelCount rs c = 1) :
    hasChannel (eraseReceiver rs (c, id)) c = false := by
  rw [hasChannel_false_iff, channelCount_erase rs c c id hmem, hone]
  simp

theorem hasChannel_erase_many (rs : List (String × Nat)) (c : String) (id : Nat)
    (hmem : (c, id) ∈ rs) (h2 : 2 ≤ channelCount rs c) :
    hasChannel (eraseReceiver rs (c, id)) c = true := by
  rw [hasChannel_true_iff, channelCount_erase rs c c id hmem]
  simp only [beq_self_eq_true, if_pos]
  omega

theorem stepOp_open (s : ConnState) (op : RcvOp) (h : is_open s = true) :
    is_open (stepOp s op) = true := by
  have hfields : (stepOp s op).hasConn = s.hasConn
      ∧ (stepOp s op).completed = s.completed
      ∧ (stepOp s op).statusOk = s.statusOk := by
    cases op <;> simp only [stepOp, add_receiver, remove_receiver] <;>
      (repeat' split) <;> simp
  simp only [is_open] at h ⊢
  rw [hfields.1, hfields.2.1, hfields.2.2]
  exact h

theorem stepOp_inv (s : ConnState) (op : RcvOp) (hopen : is_open s = true)
    (hinv : SubInv s) : SubInv (stepOp s op) := by
  cases op with
  | add c id =>
    simp only [stepOp, add_receiver]
    by_cases hc : hasChannel s.receivers c = true
    · rw [if_pos hc]
      intro x
      show x ∈ subscribedChannels s.wireCmds
          ↔ hasChannel (s.receivers ++ [(c, id)]) x = true
      have hch : hasChannel (s.receivers ++ [(c, id)]) x = hasChannel s.receivers x := by
        rw [hasChannel_append]
        by_cases hbe : (c == x) = true
        · have hx : x = c := (beq_iff_eq.mp hbe).symm
          subst hx
          simp [hc]
        · simp [hbe]
      rw [hch]
      exact hinv x
    · rw [if_neg hc, if_pos hopen]
      intro x
      show x ∈ subscribedChannels (s.wireCmds ++ [WireCmd.listen c])
          ↔ hasChannel (s.receivers ++ [(c, id)]) x = true
      rw [subscribed_snoc, mem_applyListen, hasChannel_append]
      constructor
      · rintro (hx | rfl)
        · rw [(hinv x).mp hx]
          rfl
        · simp
      · intro hx
        rcases (by simpa using hx :
            hasChannel s.receivers x = true ∨ (c == x) = true) with h1 | h2
        · exact Or.inl ((hinv x).mpr h1)
        · exact Or.inr (beq_iff_eq.mp h2).symm
  | remove c id =>
    simp only [stepOp, remove_receiver]
    by_cases hmem : (c, id) ∈ s.receivers
    · rw [if_pos hmem]
      have hconn : s.hasConn = true := by
        simp only [is_open, Bool.and_eq_true] at hopen
        exact hopen.1.1
      by_cases hone : channelCount s.receivers c = 1
      · have hgone : (s.hasConn && (channelCount s.receivers c == 1)) = true := by
          simp [hconn, hone]
        simp only [hgone, if_true]
        intro x
        show x ∈ subscribedChannels (s.wireCmds ++ [WireCmd.unlisten c])
            ↔ hasChannel (eraseReceiver s.receivers (c, id)) x = true
        rw [subscribed_snoc, mem_applyUnlisten]
        by_cases hxc : x = c
        · subst hxc
          rw [hasChannel_erase_last s.receivers x id hmem hone]
          simp
        · rw [hasChannel_erase_ne s.receivers c x id hmem hxc]
          constructor
          · rintro ⟨hx, -⟩
            exact (hinv x).mp hx
          · intro hx
            exact ⟨(hinv x).mpr hx, hxc⟩
      · have hgone : (s.hasConn && (channelCount s.receivers c == 1)) = false := by
          simp [hone]
        simp only [hgone, Bool.false_eq_true, if_false]
        have hc2 : 2 ≤ channelCount s.receivers c := by
          have := mem_count_pos s.receivers c id hmem
          omega
        intro x
        show x ∈ subscribedChannels s.wireCmds
            ↔ hasChannel (eraseReceiver s.receivers (c, id)) x = true
        by_cases hxc : x = c
        · subst hxc
          rw [hasChannel_erase_many s.receivers x id hmem hc2]
          have hrs : hasChannel s.receivers x = true := by
            rw [hasChannel_true_iff]
            omega
          simpa using (hinv x).mpr hrs
        · rw [hasChannel_erase_ne s.receivers c x id hmem hxc]
          exact hinv x
    · rw [if_neg hmem]
      intro x
      exact hinv x


theorem runOps_inv (ops : List RcvOp) :
    ∀ s : ConnState, is_open s = true → SubInv s →
      SubInv (runOps s ops) ∧ is_open (runOps s ops) = true := by
  induction ops with
  | nil => exact fun s h hi => ⟨hi, h⟩
  | cons op rest ih =>
    intro s h hi
    simp only [runOps, List.foldl_cons]
    exact ih (stepOp s op) (stepOp_open s op h) (stepOp_inv s op h hi)

/-! Claim theorems. -/

/-- C10: for every session state, calling `remove_receiver` with a null
receiver pointer is a silent no-op: the state is returned unchanged (no
exception, no diagnostic notice, registry untouched). -/
theorem C10_null_remove_receiver_noop :
    ∀ s : ConnState, remove_receiver s none = s :=
  fun _ => rfl

/-- C4: `activate` is idempotent and fail-fast.  Once activation has been
attempted (`completed`), a call on an open session returns immediately with
the state unchanged; a call on a session that is not open raises a
broken-connection error, again leaving the state unchanged (in particular
no reconnection is attempted); and after `simulate_failure` forces
disconnection, `activate` raises broken-connection without reconnecting. -/
theorem C4_activate_idempotent_failfast (s : ConnState) (hc : s.completed = true) :
    (is_open s = true → activate s = (s, none))
    ∧ (is_open s = false →
        activate s = (s, some (PqxxError.brokenConnection "Broken connection.")))
    ∧ activate (simulate_failure s)
        = (simulate_failure s,
           some (PqxxError.brokenConnection "Broken connection.")) := by
  refine ⟨fun ho => by simp [activate, hc, ho], fun ho => by simp [activate, hc, ho], ?_⟩
  by_cases hcn : s.hasConn
  · simp [simulate_failure, hcn, disconnect, activate, is_open, hc]
  · simp [simulate_failure, hcn, activate, is_open, hcn, hc]

theorem C4_witness :
    s0.completed = true ∧ activate s0 = (s0, none) :=
  ⟨rfl, (C4_activate_idempotent_failfast s0 rfl).1 rfl⟩

/-- C5: `close` never propagates a failure: for every state (transaction
registered or not, receivers pending or not, handlers registered or not)
and every behavior of its fallible internal steps, the call raises nothing.
On the failure-free path it performs its steps best-effort: diagnostic
notice for an open transaction, diagnostic notice and clearing of the
receiver registry, unregistration of every handler in
reverse-registration order, and release of the handle; and a repeated call
again raises nothing. -/
theorem C5_close_never_raises (fail : CloseStep → Bool) (s : ConnState) :
    (close fail s).2 = none
    ∧ (close (fun _ => false) s).1.receivers = []
    ∧ (close (fun _ => false) s).1.errorhandlers = []
    ∧ (close (fun _ => false) s).1.hasConn = false
    ∧ (close (fun _ => false) s).1.unregistered
        = s.unregistered ++ s.errorhandlers.reverse
    ∧ (close (fun _ => false) s).1.notices = s.notices
        ++ (if s.transActive then
              ["Closing connection while a transaction is still open."] else [])
        ++ (if s.receivers.isEmpty then []
            else ["Closing connection with outstanding receivers."])
    ∧ (close (fun _ => false) ((close (fun _ => false) s).1)).2 = none := by
  refine ⟨rfl, ?_, ?_, ?_, ?_, ?_, rfl⟩ <;> rw [close_nofail]

/-- C7: `write_copy_line` on an open session sends a line that does not end
in a terminator with exactly one terminator appended; and whenever the
underlying send reports a non-positive result, the `PQendcopy` stream-abort
request is issued and the raised error is a query failure carrying the
driver's error text. -/
theorem C7_write_copy_line (s : ConnState) (line : List Char) (sendResult : Int)
    (hopen : is_open s = true) :
    (line.getLast? ≠ some '\n' → 0 < sendResult →
      write_copy_line sendResult s line
          = ({ s with copySent := s.copySent ++ [line ++ ['\n']] }, none)
        ∧ endsInOneNewline (line ++ ['\n']) = true)
    ∧ (sendResult ≤ 0 →
      write_copy_line sendResult s line
        = ({ s with events := s.events ++ [DriverEvent.endcopy] },
            some (PqxxError.failure ("Error writing to table: " ++ s.errMsg)))) := by
  constructor
  · intro hnl hpos
    have h1 : ¬ (sendResult ≤ 0) := by omega
    constructor
    · simp [write_copy_line, hopen, h1]
    · simp [endsInOneNewline, List.getLast?_concat, List.dropLast_concat, hnl]
  · intro hle
    simp [write_copy_line, hopen, hle]

theorem C7_witness :
    is_open s0 = true
    ∧ write_copy_line 1 s0 ['a']
        = ({ s0 with copySent := s0.copySent ++ [['a', '\n']] }, none) :=
  ⟨rfl, ((C7_write_copy_line s0 ['a'] 1 rfl).1 (by decide) (by decide)).1⟩

/-- C8: `read_copy_line` on an open session handles the driver's per-call
return value as a tri-state: a positive length stores the returned data and
reports a line available; -1 (end of stream) drains and validates the
trailing result objects and reports no more lines; -2 (hard failure) raises
a query failure carrying the driver's error text; and, within the driver's
contract (`PQgetCopyData` returns a value that is at least -2), the only
other value, the asynchronous-completion value 0, raises an
internal-invariant error. -/
theorem C8_read_copy_line (s : ConnState) (retLen : Int) (buf lineIn : List Char)
    (hopen : is_open s = true) (hret : -2 ≤ retLen) :
    (0 < retLen → read_copy_line retLen buf lineIn s = ⟨s, buf, some true, none⟩)
    ∧ (retLen = -1 → read_copy_line retLen buf lineIn s
        = ⟨{ s with events := s.events ++ [DriverEvent.drainCopyEnd] },
            [], some false, none⟩)
    ∧ (retLen = -2 → read_copy_line retLen buf lineIn s
        = ⟨s, [], none,
            some (PqxxError.failure ("Reading of table data failed: " ++ s.errMsg))⟩)
    ∧ (retLen = 0 → read_copy_line retLen buf lineIn s
        = ⟨s, [], none,
            some (PqxxError.internalError "table read inexplicably went asynchronous")⟩)
    ∧ ((read_copy_line retLen buf lineIn s).err
          = some (PqxxError.internalError "table read inexplicably went asynchronous")
        ↔ retLen = 0) := by
  refine ⟨?_, ?_, ?_, ?_, ?_⟩
  · intro hpos
    have h2 : retLen ≠ -2 := by omega
    have h1 : retLen ≠ -1 := by omega
    have h0 : retLen ≠ 0 := by omega
    simp [read_copy_line, hopen, h2, h1, h0]
  · intro h; simp [read_copy_line, hopen, h]
  · intro h; simp [read_copy_line, hopen, h]
  · intro h; simp [read_copy_line, hopen, h]
  · have hcases : retLen = -2 ∨ retLen = -1 ∨ retLen = 0 ∨ 0 < retLen := by omega
    rcases hcases with h | h | h | h
    · simp [read_copy_line, hopen, h]
    · simp [read_copy_line, hopen, h]
    · simp [read_copy_line, hopen, h]
    · have h2 : retLen ≠ -2 := by omega
      have h1 : retLen ≠ -1 := by omega
      have h0 : retLen ≠ 0 := by omega
      simp [read_copy_line, hopen, h2, h1, h0]

theorem C8_witness :
    is_open s0 = true ∧ (-2 : Int) ≤ 3
    ∧ read_copy_line 3 ['a', 'b', 'c'] [] s0 = ⟨s0, ['a', 'b', 'c'], some true, none⟩ :=
  ⟨rfl, by omega,
    (C8_read_copy_line s0 3 ['a', 'b', 'c'] [] rfl (by omega)).1 (by omega)⟩

/-- C2: for every non-empty notice, dispatch walks the handler chain from
most-recently-registered to least-recently-registered (the reverse of
registration order) and stops at the first handler that consumes the
message (returns `false`): the visited handlers are exactly the leading
non-consumers of the reversed chain followed by the first consumer, if
any.  If no handler consumes the message every handler observes it once
and the message is then dropped; an empty chain observes nothing; and in
the two-handler scenario with H1 registered first and H2 second, both
willing to consume, only H2 observes the message. -/
theorem C2_dispatch_most_recent_first (hfun : Nat → List Char → Bool)
    (hs : List Nat) (msg : List Char) (hmsg : msg ≠ []) :
    (∃ t, hs.reverse = process_notice_raw hfun hs msg ++ t)
    ∧ (process_notice_raw hfun hs msg
        = hs.reverse.takeWhile (fun g => hfun g msg)
          ++ (hs.reverse.dropWhile (fun g => hfun g msg)).take 1)
    ∧ ((∀ h ∈ hs, hfun h msg = true) → process_notice_raw hfun hs msg = hs.reverse)
    ∧ process_notice_raw hfun ([] : List Nat) msg = []
    ∧ (∀ h1 h2 : Nat, hfun h1 msg = false → hfun h2 msg = false →
        process_notice_raw hfun [h1, h2] msg = [h2]) := by
  refine ⟨?_, ?_, ?_, ?_, ?_⟩
  · simpa [process_notice_raw, hmsg] using dispatchList_leading hfun msg hs.reverse
  · simp only [process_notice_raw, if_neg hmsg]
    exact dispatchList_eq_span hfun msg hs.reverse
  · intro hall
    simp only [process_notice_raw, if_neg hmsg]
    exact dispatchList_all_true hfun msg hs.reverse
      (fun g hg => hall g (by simpa using hg))
  · simp [process_notice_raw, hmsg, dispatchList]
  · intro h1 h2 _ hf2
    simp [process_notice_raw, hmsg, dispatchList, hf2]

theorem C2_witness :
    (['n'] : List Char) ≠ []
    ∧ process_notice_raw (fun _ _ => false) [1, 2] ['n'] = [2] :=
  ⟨by simp,
    (C2_dispatch_most_recent_first (fun _ _ => false) [1, 2] ['n']
        (by simp)).2.2.2.2 1 2 rfl rfl⟩

/-- C9: on an open session with no registered transaction, `get_notifs`
counts every drained notification, including notifications on channels
with no registered receiver, and raises nothing; when no drained
notification has a registered receiver, the notifications are silently
discarded: the final state is the post-consumption state with an empty
notification queue and, in particular, unchanged notices and receiver
invocations. -/
theorem C9_receiverless_notifications_counted (f : Nat → Notification → Bool)
    (s : ConnState) (hopen : is_open s = true) (htr : s.transActive = false) :
    (get_notifs true f s).count = s.pending.length + s.wireInput.length
    ∧ (get_notifs true f s).err = none
    ∧ ((∀ n ∈ s.pending ++ s.wireInput, hasChannel s.receivers n.relname = false) →
        (get_notifs true f s).st = { consume_input s with pending := [] }) := by
  have hres : get_notifs true f s
      = ⟨(s.pending ++ s.wireInput).foldl (deliverOne f)
            { consume_input s with pending := [] },
          (s.pending ++ s.wireInput).length, none⟩ := by
    simp [get_notifs, hopen, consume_input, htr]
  refine ⟨?_, ?_, ?_⟩
  · rw [hres]
    simp
  · rw [hres]
  · intro hnone
    rw [hres]
    exact drain_no_receivers f _ _ (fun n hn => hnone n hn)

theorem C9_witness :
    is_open cs9 = true ∧ cs9.transActive = false
    ∧ (get_notifs true (fun _ _ => false) cs9).count = 1 :=
  ⟨rfl, rfl, by
    have h := (C9_receiverless_notifications_counted (fun _ _ => false) cs9 rfl rfl).1
    simpa [cs9, s0] using h⟩

/-- C3 counterexample: `get_notifs` on an open session with a registered
transaction does return 0 and raises nothing, but the pending notification
input is NOT left unconsumed on the wire: `PQconsumeInput` runs before the
transaction check, so the socket input (here one notification) is consumed
into the driver's queue and the wire is empty afterwards. -/
theorem C3_counterexample :
    (get_notifs true (fun _ _ => false) cs3).count = 0
    ∧ (get_notifs true (fun _ _ => false) cs3).err = none
    ∧ cs3.wireInput ≠ []
    ∧ (get_notifs true (fun _ _ => false) cs3).st.wireInput = []
    ∧ (get_notifs true (fun _ _ => false) cs3).st.pending
        = cs3.pending ++ cs3.wireInput := by
  refine ⟨rfl, rfl, ?_, rfl, rfl⟩
  simp [cs3, s0]

/-- C3 amended: `get_notifs` on an open session with a registered
transaction returns 0 and raises nothing, invokes no receiver, and —
although the socket input is consumed into the driver's notification
queue — leaves every notification undelivered there, so that after the
transaction is unregistered a later `get_notifs` call counts all of them
and delivers each one to its registered receivers. -/
theorem C3_amended_deferred_delivery (f : Nat → Notification → Bool)
    (s : ConnState) (hopen : is_open s = true) (htr : s.transActive = true) :
    get_notifs true f s = ⟨consume_input s, 0, none⟩
    ∧ (get_notifs true f s).st.invoked = s.invoked
    ∧ (∀ (c : String) (id : Nat) (n : Notification),
        (c, id) ∈ s.receivers → n ∈ s.pending ++ s.wireInput →
        n.relname = c → f id n = false →
        (get_notifs true f { consume_input s with transActive := false }).count
            = s.pending.length + s.wireInput.length
        ∧ (id, n) ∈
            (get_notifs true f { consume_input s with transActive := false }).st.invoked) := by
  have h1 : get_notifs true f s = ⟨consume_input s, 0, none⟩ := by
    simp [get_notifs, hopen, consume_input, htr]
  have ho2 : is_open { consume_input s with transActive := false } = true := hopen
  have ht2 : ({ consume_input s with transActive := false } : ConnState).transActive
      = false := rfl
  refine ⟨h1, by rw [h1]; rfl, ?_⟩
  intro c id n hmem hq hrel hf
  rw [get_notifs_open_notrans f _ ho2 ht2]
  constructor
  · simp [consume_input]
  · apply drain_invokes f n c id hrel hf
    · simpa [consume_input] using hq
    · simpa [consume_input] using hmem

theorem C3_witness :
    is_open cs3 = true ∧ cs3.transActive = true
    ∧ get_notifs true (fun _ _ => false) cs3 = ⟨consume_input cs3, 0, none⟩
    ∧ ((7 : Nat), (⟨"alerts", "p1", 1⟩ : Notification)) ∈
        (get_notifs true (fun _ _ => false)
          { consume_input cs3 with transActive := false }).st.invoked :=
  ⟨rfl, rfl,
    (C3_amended_deferred_delivery (fun _ _ => false) cs3 rfl rfl).1,
    ((C3_amended_deferred_delivery (fun _ _ => false) cs3 rfl rfl).2.2
        "alerts" 7 ⟨"alerts", "p1", 1⟩ (by simp [cs3, s0])
        (by simp [cs3, s0]) rfl rfl).2⟩

/-- C6 counterexample: text delivered to a handler does not always end in
EXACTLY one newline.  The char-array entry point passes text that already
ends in a newline through unchanged, so a notice whose text ends in two
newlines reaches the handler ending in two newlines. -/
theorem C6_counterexample :
    process_notice_char (fun _ => true) ['x', '\n', '\n'] = [['x', '\n', '\n']]
    ∧ endsInOneNewline ['x', '\n', '\n'] = false := by
  constructor
  · rfl
  · rfl

/-- C6 amended: for every non-empty notice and every allocation behavior —
except the corner case where copying the text succeeds but appending the
newline fails — every string `process_notice` hands to the handler chain
ends in a newline (at least one: a newline is appended exactly when the
text does not already end in one, so pre-existing extra newlines pass
through).  Messages whose copy cannot be allocated are chunked rather than
erroring, each full chunk carrying the truncation marker. -/
theorem C6_amended_newline_terminated (alloc : Nat → Bool) (msg : List Char)
    (hne : msg ≠ [])
    (hdeg : alloc msg.length = true → alloc (msg.length + 1) = true) :
    (∀ ch ∈ process_notice_char alloc msg, ch.getLast? = some '\n')
    ∧ (msg.getLast? ≠ some '\n' → alloc msg.length = false → 999 < msg.length →
        (process_notice_char alloc msg).head?
          = some (msg.take 999 ++ separatorChars)) := by
  have hlen : ¬ msg.length = 0 := fun h0 => hne (List.length_eq_zero.mp h0)
  constructor
  · intro ch hch
    unfold process_notice_char at hch
    rw [if_neg hlen] at hch
    by_cases hl : msg.getLast? = some '\n'
    · rw [if_pos hl] at hch
      simp only [List.mem_singleton] at hch
      subst hch
      exact hl
    · rw [if_neg hl] at hch
      cases ha : alloc msg.length with
      | true =>
        rw [ha, if_pos rfl] at hch
        unfold process_notice_string at hch
        rw [if_neg hl, if_pos (hdeg ha)] at hch
        simp only [List.mem_singleton] at hch
        subst hch
        exact List.getLast?_concat _
      | false =>
        rw [ha] at hch
        simp only [Bool.false_eq_true, if_false] at hch
        exact noticeChunks_end_newline msg.length msg le_rfl hne ch hch
  · intro hl ha h9
    unfold process_notice_char
    rw [if_neg hlen, if_neg hl, ha]
    simp only [Bool.false_eq_true, if_false]
    rw [noticeChunks, dif_pos h9]
    rfl

/-- C1: starting from any open session satisfying the subscription
invariant (in particular a fresh one with no receivers and no
subscriptions), every sequence of `add_receiver`/`remove_receiver` calls
preserves it: at every point the set of channels with a live LISTEN
subscription on the wire equals the set of channels with at least one
registered receiver.  Moreover, at every reachable state, an
`add_receiver` issues a LISTEN exactly when it adds the first receiver for
its channel, and a `remove_receiver` of a registered receiver issues an
UNLISTEN exactly when it removes the last receiver for its channel. -/
theorem C1_subscription_invariant (s : ConnState) (ops : List RcvOp)
    (hopen : is_open s = true) (hinv : SubInv s) :
    SubInv (runOps s ops)
    ∧ (∀ (c : String) (id : Nat),
        ((add_receiver (runOps s ops) (some (c, id))).1).wireCmds
          = (runOps s ops).wireCmds
            ++ (if hasChannel (runOps s ops).receivers c then []
                else [WireCmd.listen c]))
    ∧ (∀ (c : String) (id : Nat), (c, id) ∈ (runOps s ops).receivers →
        (remove_receiver (runOps s ops) (some (c, id))).wireCmds
          = (runOps s ops).wireCmds
            ++ (if channelCount (runOps s ops).receivers c == 1
                then [WireCmd.unlisten c] else [])) := by
  obtain ⟨hi, ho⟩ := runOps_inv ops s hopen hinv
  refine ⟨hi, ?_, ?_⟩
  · intro c id
    by_cases hc : hasChannel (runOps s ops).receivers c = true
    · simp [add_receiver, hc]
    · simp [add_receiver, hc, ho]
  · intro c id hmem
    have hconn : (runOps s ops).hasConn = true := by
      simp only [is_open, Bool.and_eq_true] at ho
      exact ho.1.1
    by_cases hone : channelCount (runOps s ops).receivers c = 1
    · have hgone : ((runOps s ops).hasConn
          && (channelCount (runOps s ops).receivers c == 1)) = true := by
        simp [hconn, hone]
      simp [remove_receiver, hmem, hgone, hone, hconn]
    · have hgone : ((runOps s ops).hasConn
          && (channelCount (runOps s ops).receivers c == 1)) = false := by
        simp [hone]
      simp [remove_receiver, hmem, hgone, hone, hconn]

theorem C1_witness :
    is_open s0 = true ∧ SubInv s0
    ∧ SubInv (runOps s0 [RcvOp.add "alerts" 7, RcvOp.remove "alerts" 7]) :=
  ⟨rfl, by intro c; simp [s0, subscribedChannels, hasChannel],
    (C1_subscription_invariant s0 [RcvOp.add "alerts" 7, RcvOp.remove "alerts" 7]
      rfl (by intro c; simp [s0, subscribedChannels, hasChannel])).1⟩

theorem C6_witness :
    (['a'] : List Char) ≠ []
    ∧ (true = true → true = true)
    ∧ (['a', '\n'] : List Char).getLast? = some '\n' :=
  ⟨by simp, fun h => h,
    (C6_amended_newline_terminated (fun _ => true) ['a'] (by simp)
      (fun _ => rfl)).1 ['a', '\n'] (by decide)⟩

end Pqxx
